import Mathlib

/-!
Shallow embedding of the CUDA allocator family from
`onnxruntime/core/providers/cuda/cuda_allocator.cc`.

Pointers are modelled as natural numbers, with `0` playing the role of
`nullptr`.  Calls into the CUDA platform (`cudaSetDevice` wrapped by
`SetDevice`, the `CheckDevice` debug assertion, `cudaMalloc`, `cudaFree`,
`cudaMallocHost`, `cudaFreeHost`) are recorded in an explicit event log so
that statements about "which device primitives were invoked" can be made.
The outcome of each device allocation call is supplied as an explicit
parameter (`ok : Bool`, or `Option Ptr` for the throwing allocators):
`cudaMalloc` either succeeds, yielding a fresh pointer, or fails leaving
the output pointer untouched (`nullptr`).  Fresh pointers are produced by
a counter `nextPtr`, modelling that the device API returns pairwise
distinct addresses for simultaneously live allocations.

Fatal paths (`CUDA_CALL_THROW`, `ORT_ENFORCE`) are modelled by `Except`:
an `Except.error` result is a fatal failure that propagates to the caller.
-/

abbrev Ptr := Nat

inductive DevCall
  | setDevice (strict : Bool)
  | checkDevice (strict : Bool)
  | cudaMalloc (size : Nat) (ret : Ptr)
  | cudaFree (p : Ptr)
  | cudaMallocHost (size : Nat) (ret : Ptr)
  | cudaFreeHost (p : Ptr)
  deriving DecidableEq, Repr

inductive OrtError
  | cudaThrow
  | enforceNonNull
  | enforceNotReserved
  deriving DecidableEq, Repr

def DevCall.isMalloc : DevCall → Bool
  | DevCall.cudaMalloc _ _ => true
  | _ => false

def DevCall.isFree : DevCall → Bool
  | DevCall.cudaFree _ => true
  | _ => false

def DevCall.isActivation : DevCall → Bool
  | DevCall.setDevice _ => true
  | DevCall.checkDevice _ => true
  | _ => false

/-- CUDAAllocator::Alloc (cuda_allocator.cc:80-89): `SetDevice(true)` then
`CheckDevice(true)`, then for `size > 0` a `cudaMalloc` wrapped in
`CUDA_CALL_THROW` (fatal on failure); returns `nullptr` for `size = 0`.
The second component is the sequence of device calls performed. -/
def CUDAAllocator.Alloc (size : Nat) (mallocRet : Option Ptr) :
    Except OrtError Ptr × List DevCall :=
  let pre : List DevCall := [DevCall.setDevice true, DevCall.checkDevice true]
  if size > 0 then
    match mallocRet with
    | some p => (Except.ok p, pre ++ [DevCall.cudaMalloc size p])
    | none => (Except.error OrtError.cudaThrow, pre ++ [DevCall.cudaMalloc size 0])
  else (Except.ok 0, pre)

/-- CUDAAllocator::Free (cuda_allocator.cc:91-95): `SetDevice(false)`,
`CheckDevice(false)`, then `cudaFree(p)` with the result ignored. -/
def CUDAAllocator.Free (p : Ptr) : List DevCall :=
  [DevCall.setDevice false, DevCall.checkDevice false, DevCall.cudaFree p]

/-- Association-list lookup, modelling `std::unordered_map::find` /
`std::map::find` for `Nat`-keyed maps. -/
def assocFind {α : Type} (m : List (Nat × α)) (k : Nat) : Option α :=
  match m with
  | [] => none
  | (k2, v) :: rest => if k2 = k then some v else assocFind rest k

/-- Replace the value stored at key `k` (append the pair when absent),
modelling in-place mutation through an iterator / `operator[]`. -/
def assocSet {α : Type} (m : List (Nat × α)) (k : Nat) (v : α) : List (Nat × α) :=
  match m with
  | [] => [(k, v)]
  | (k2, w) :: rest => if k2 = k then (k, v) :: rest else (k2, w) :: assocSet rest k v

/-- `std::unordered_map::insert`: inserts only when the key is absent. -/
def mapInsert {α : Type} (m : List (Nat × α)) (k : Nat) (v : α) : List (Nat × α) :=
  match assocFind m k with
  | some _ => m
  | none => m ++ [(k, v)]

/-- `std::set::insert` on a pointer set: inserts only when absent. -/
def setInsert (s : List Ptr) (p : Ptr) : List Ptr :=
  if p ∈ s then s else s ++ [p]

/-- State of a `CUDAMemoryPoolAllocator` together with the device-call log
and the fresh-pointer counter of the modelled device. -/
structure PoolState where
  size_to_alloc_ptrs : List (Nat × List Ptr)
  alloc_ptr_to_size : List (Ptr × Nat)
  reserved_ptrs : List Ptr
  nextPtr : Ptr
  log : List DevCall
  deriving DecidableEq, Repr

def initPoolState : PoolState := ⟨[], [], [], 1, []⟩

/-- One `cudaMalloc` call: on success the device hands out the fresh
pointer `nextPtr`; on failure the output pointer keeps its initialised
`nullptr` value.  Either way the primitive was invoked once. -/
def PoolState.mallocStep (st : PoolState) (size : Nat) (ok : Bool) : Ptr × PoolState :=
  if ok then
    (st.nextPtr, { st with nextPtr := st.nextPtr + 1,
                           log := st.log ++ [DevCall.cudaMalloc size st.nextPtr] })
  else
    (0, { st with log := st.log ++ [DevCall.cudaMalloc size 0] })

/-- CUDAMemoryPoolAllocator::Alloc (cuda_allocator.cc:97-123).
`size = 0` returns `nullptr`.  Otherwise look up the size bucket; when the
bucket exists and is non-empty, pop its back element and return it.
Otherwise `cudaMalloc` (result unchecked in the source), record the size
in `alloc_ptr_to_size_`, and push the new pointer into the bucket
(`push_back` into the existing vector, or insertion of a fresh singleton
vector) before returning it. -/
def PoolState.Alloc (st : PoolState) (size : Nat) (ok : Bool) : Ptr × PoolState :=
  if size = 0 then (0, st)
  else
    match assocFind st.size_to_alloc_ptrs size with
    | some l =>
      match l.getLast? with
      | some p =>
          (p, { st with size_to_alloc_ptrs := assocSet st.size_to_alloc_ptrs size l.dropLast })
      | none =>
          let r := st.mallocStep size ok
          let st2 := { r.2 with alloc_ptr_to_size := mapInsert r.2.alloc_ptr_to_size r.1 size }
          (r.1, { st2 with size_to_alloc_ptrs := assocSet st2.size_to_alloc_ptrs size (l ++ [r.1]) })
    | none =>
        let r := st.mallocStep size ok
        let st2 := { r.2 with alloc_ptr_to_size := mapInsert r.2.alloc_ptr_to_size r.1 size }
        (r.1, { st2 with size_to_alloc_ptrs := st2.size_to_alloc_ptrs ++ [(size, [r.1])] })

/-- CUDAMemoryPoolAllocator::Reserve (cuda_allocator.cc:125-132): for
`size > 0`, `cudaMalloc` (unchecked) and insert the resulting pointer into
`reserved_ptrs_`; `size = 0` returns `nullptr` untracked. -/
def PoolState.Reserve (st : PoolState) (size : Nat) (ok : Bool) : Ptr × PoolState :=
  if size > 0 then
    let r := st.mallocStep size ok
    (r.1, { r.2 with reserved_ptrs := setInsert r.2.reserved_ptrs r.1 })
  else (0, st)

/-- CUDAMemoryPoolAllocator::Free (cuda_allocator.cc:134-146): `nullptr`
is a no-op; a reserved pointer is `cudaFree`d and erased from the
reserved set; otherwise the pointer is pushed back into the bucket keyed
by `alloc_ptr_to_size_[p]` (both `operator[]` calls default-insert when
the key is absent) and the device memory is not released. -/
def PoolState.Free (st : PoolState) (p : Ptr) : PoolState :=
  if p = 0 then st
  else if p ∈ st.reserved_ptrs then
    { st with log := st.log ++ [DevCall.cudaFree p],
              reserved_ptrs := st.reserved_ptrs.erase p }
  else
    let sz := (assocFind st.alloc_ptr_to_size p).getD 0
    let idx2 := mapInsert st.alloc_ptr_to_size p sz
    let l := (assocFind st.size_to_alloc_ptrs sz).getD []
    { st with alloc_ptr_to_size := idx2,
              size_to_alloc_ptrs := assocSet st.size_to_alloc_ptrs sz (l ++ [p]) }

/-- CUDAMemoryPoolAllocator::~CUDAMemoryPoolAllocator
(cuda_allocator.cc:148-156): `cudaFree` every reserved pointer, then
`cudaFree` the key of every `alloc_ptr_to_size_` entry.  The result is
the list of pointers passed to `cudaFree`, in order. -/
def PoolState.destructFrees (st : PoolState) : List Ptr :=
  st.reserved_ptrs ++ st.alloc_ptr_to_size.map Prod.fst

/-- All pointers sitting in some size bucket (free-for-reuse). -/
def bucketsElems (m : List (Nat × List Ptr)) : List Ptr :=
  (m.map Prod.snd).flatten

def PoolState.poolElems (st : PoolState) : List Ptr :=
  bucketsElems st.size_to_alloc_ptrs

def mallocCount (st : PoolState) : Nat := (st.log.filter DevCall.isMalloc).length

def cudaFreeCount (st : PoolState) : Nat := (st.log.filter DevCall.isFree).length

/-- Events of the external allocator's caller-supplied hooks. -/
inductive ExtCall
  | allocHook (size : Nat) (ret : Ptr)
  | freeHook (p : Ptr)
  | emptyCacheHook
  deriving DecidableEq, Repr

def ExtCall.isEmptyCache : ExtCall → Bool
  | ExtCall.emptyCacheHook => true
  | _ => false

def ExtCall.isAllocHook : ExtCall → Bool
  | ExtCall.allocHook _ _ => true
  | _ => false

/-- State of a `CUDAExternalAllocator`: its reserved set plus the log of
hook invocations.  `hasEC` (passed to `Free`) records whether the
optional `empty_cache_` hook was supplied at construction. -/
structure ExtState where
  reserved : List Ptr
  log : List ExtCall
  deriving DecidableEq, Repr

def initExtState : ExtState := ⟨[], []⟩

def ecCount (st : ExtState) : Nat := (st.log.filter ExtCall.isEmptyCache).length

/-- CUDAExternalAllocator::Alloc (cuda_allocator.cc:158-167): for
`size > 0` call the `alloc_` hook (its return value is the parameter
`hookRet`) and `ORT_ENFORCE` the result is non-null; `size = 0` returns
`nullptr` without calling the hook. -/
def CUDAExternalAllocator.Alloc (st : ExtState) (size : Nat) (hookRet : Ptr) :
    Except OrtError (Ptr × ExtState) :=
  if size > 0 then
    let st1 : ExtState := { st with log := st.log ++ [ExtCall.allocHook size hookRet] }
    if hookRet = 0 then Except.error OrtError.enforceNonNull
    else Except.ok (hookRet, st1)
  else Except.ok (0, st)

/-- CUDAExternalAllocator::Free (cuda_allocator.cc:169-177): call the
`free_` hook unconditionally first; then, under the lock, if the pointer
is in `reserved_`, erase it and invoke `empty_cache_` when supplied. -/
def CUDAExternalAllocator.Free (hasEC : Bool) (st : ExtState) (p : Ptr) : ExtState :=
  let st1 : ExtState := { st with log := st.log ++ [ExtCall.freeHook p] }
  if p ∈ st1.reserved then
    let st2 : ExtState := { st1 with reserved := st1.reserved.erase p }
    if hasEC then { st2 with log := st2.log ++ [ExtCall.emptyCacheHook] } else st2
  else st1

/-- CUDAExternalAllocator::Reserve (cuda_allocator.cc:179-186): call
`Alloc`; a null result is returned as-is; otherwise `ORT_ENFORCE` the
pointer is not already reserved (fatal when it is) and insert it into
`reserved_` under the lock. -/
def CUDAExternalAllocator.Reserve (st : ExtState) (size : Nat) (hookRet : Ptr) :
    Except OrtError (Ptr × ExtState) :=
  match CUDAExternalAllocator.Alloc st size hookRet with
  | Except.error e => Except.error e
  | Except.ok (p, st1) =>
    if p = 0 then Except.ok (0, st1)
    else if p ∈ st1.reserved then Except.error OrtError.enforceNotReserved
    else Except.ok (p, { st1 with reserved := st1.reserved ++ [p] })

/-- CUDAPinnedAllocator::Alloc (cuda_allocator.cc:196-202): for
`size > 0` a `cudaMallocHost` wrapped in `CUDA_CALL_THROW`; `size = 0`
returns `nullptr` without any device call. -/
def CUDAPinnedAllocator.Alloc (size : Nat) (mallocRet : Option Ptr) :
    Except OrtError Ptr × List DevCall :=
  if size > 0 then
    match mallocRet with
    | some p => (Except.ok p, [DevCall.cudaMallocHost size p])
    | none => (Except.error OrtError.cudaThrow, [DevCall.cudaMallocHost size 0])
  else (Except.ok 0, [])

/-- CUDAPinnedAllocator::Free (cuda_allocator.cc:204-206):
`cudaFreeHost` wrapped in `CUDA_CALL_THROW`. -/
def CUDAPinnedAllocator.Free (p : Ptr) (freeOk : Bool) :
    Except OrtError Unit × List DevCall :=
  if freeOk then (Except.ok (), [DevCall.cudaFreeHost p])
  else (Except.error OrtError.cudaThrow, [DevCall.cudaFreeHost p])

/-- States of the pool allocator reachable from the fresh allocator by
`Alloc` / `Reserve` / `Free` when every device allocation succeeds.
`Free` is restricted to pointers the device has handed out so far
(every pointer a caller can hold is below `nextPtr`). -/
inductive PoolReach : PoolState → Prop
  | init : PoolReach initPoolState
  | alloc (st : PoolState) (s : Nat) (h : PoolReach st) :
      PoolReach (PoolState.Alloc st s true).2
  | reserve (st : PoolState) (s : Nat) (h : PoolReach st) :
      PoolReach (PoolState.Reserve st s true).2
  | free (st : PoolState) (p : Ptr) (h : PoolReach st) (hp : p < st.nextPtr) :
      PoolReach (PoolState.Free st p)

/-! ### Helper lemmas about the device-call logs of the pool operations -/

theorem poolMallocStep_log (st : PoolState) (size : Nat) (ok : Bool) :
    ∃ p, (PoolState.mallocStep st size ok).2.log = st.log ++ [DevCall.cudaMalloc size p] := by
  unfold PoolState.mallocStep
  cases ok with
  | false => exact ⟨0, rfl⟩
  | true => exact ⟨st.nextPtr, rfl⟩

theorem poolAlloc_log (st : PoolState) (size : Nat) (ok : Bool) :
    (PoolState.Alloc st size ok).2.log = st.log ∨
    ∃ p, (PoolState.Alloc st size ok).2.log = st.log ++ [DevCall.cudaMalloc size p] := by
  by_cases h0 : size = 0
  · simp [PoolState.Alloc, h0]
  · cases h : assocFind st.size_to_alloc_ptrs size with
    | some l =>
      cases hl : l.getLast? with
      | some p => simp [PoolState.Alloc, h0, h, hl]
      | none =>
        obtain ⟨q, hq⟩ := poolMallocStep_log st size ok
        refine Or.inr ⟨q, ?_⟩
        simp [PoolState.Alloc, h0, h, hl, hq]
    | none =>
      obtain ⟨q, hq⟩ := poolMallocStep_log st size ok
      refine Or.inr ⟨q, ?_⟩
      simp [PoolState.Alloc, h0, h, hq]

theorem poolReserve_log (st : PoolState) (size : Nat) (ok : Bool) :
    (PoolState.Reserve st size ok).2.log = st.log ∨
    ∃ p, (PoolState.Reserve st size ok).2.log = st.log ++ [DevCall.cudaMalloc size p] := by
  by_cases h0 : size > 0
  · obtain ⟨q, hq⟩ := poolMallocStep_log st size ok
    refine Or.inr ⟨q, ?_⟩
    simp [PoolState.Reserve, h0, hq]
  · simp [PoolState.Reserve, h0]

theorem poolFree_log (st : PoolState) (p : Ptr) :
    (PoolState.Free st p).log = st.log ∨
    (p ≠ 0 ∧ p ∈ st.reserved_ptrs ∧
      (PoolState.Free st p).log = st.log ++ [DevCall.cudaFree p]) := by
  by_cases h0 : p = 0
  · simp [PoolState.Free, h0]
  · by_cases hres : p ∈ st.reserved_ptrs
    · exact Or.inr ⟨h0, hres, by simp [PoolState.Free, h0, hres]⟩
    · simp [PoolState.Free, h0, hres]

/-! ### C8: zero-size allocation -/

/-- C8: on every allocator variant — raw device, pooled device, external,
pinned host — `Alloc(0)` returns the null handle, leaves the allocator
state unchanged, and performs no platform or delegate allocate call (the
raw variant still performs its device-activation calls, which are not
allocate primitives). -/
theorem C8_alloc_zero_returns_null :
    (∀ r, CUDAAllocator.Alloc 0 r =
        (Except.ok 0, [DevCall.setDevice true, DevCall.checkDevice true])) ∧
    (∀ (st : PoolState) (ok : Bool), PoolState.Alloc st 0 ok = (0, st)) ∧
    (∀ (st : ExtState) (ret : Ptr), CUDAExternalAllocator.Alloc st 0 ret = Except.ok (0, st)) ∧
    (∀ r, CUDAPinnedAllocator.Alloc 0 r = (Except.ok 0, [])) := by
  refine ⟨fun r => ?_, fun st ok => ?_, fun st ret => ?_, fun r => ?_⟩
  · simp [CUDAAllocator.Alloc]
  · simp [PoolState.Alloc]
  · simp [CUDAExternalAllocator.Alloc]
  · simp [CUDAPinnedAllocator.Alloc]

/-! ### C4: behaviour when the device allocation primitive fails -/

/-- C4 counterexample: on the pooled allocator a failing `cudaMalloc` is
not fatal.  From the fresh pool, `Alloc(5)` with a failing device call
returns the null handle to the caller (after invoking the primitive once)
and even records the null pointer in its bookkeeping, and `Reserve(5)`
likewise returns null and inserts the null pointer into the reserved set —
contradicting the claim that allocation failure always fails fatally and
never yields a null handle. -/
theorem C4_counterexample_pool_unchecked_malloc :
    (PoolState.Alloc initPoolState 5 false).1 = 0 ∧
    mallocCount (PoolState.Alloc initPoolState 5 false).2 = 1 ∧
    0 ∈ (PoolState.Alloc initPoolState 5 false).2.poolElems ∧
    (PoolState.Reserve initPoolState 5 false).1 = 0 ∧
    0 ∈ (PoolState.Reserve initPoolState 5 false).2.reserved_ptrs := by
  decide

/-- C4 (amended): on the raw device, pinned host and external allocators a
failed allocation with size > 0 is fatal (`CUDA_CALL_THROW` /
`ORT_ENFORCE`), with no retry and no null return; on the pooled allocator,
however, the `cudaMalloc` result is unchecked on both `Alloc` (cache-miss
path) and `Reserve`: the operation completes normally and hands the caller
the null pointer, which is also recorded in the pool bookkeeping. -/
theorem C4_amended_alloc_failure_fatal_except_pool (size : Nat) (hs : 0 < size) :
    (CUDAAllocator.Alloc size none).1 = Except.error OrtError.cudaThrow ∧
    (CUDAPinnedAllocator.Alloc size none).1 = Except.error OrtError.cudaThrow ∧
    (∀ st : ExtState, CUDAExternalAllocator.Alloc st size 0 = Except.error OrtError.enforceNonNull) ∧
    (∀ st : PoolState,
      (assocFind st.size_to_alloc_ptrs size = none ∨
       assocFind st.size_to_alloc_ptrs size = some []) →
      (PoolState.Alloc st size false).1 = 0) ∧
    (∀ st : PoolState, (PoolState.Reserve st size false).1 = 0 ∧
      0 ∈ (PoolState.Reserve st size false).2.reserved_ptrs) := by
  have h0 : size ≠ 0 := Nat.pos_iff_ne_zero.mp hs
  refine ⟨?_, ?_, fun st => ?_, fun st h => ?_, fun st => ?_⟩
  · simp [CUDAAllocator.Alloc, hs]
  · simp [CUDAPinnedAllocator.Alloc, hs]
  · simp [CUDAExternalAllocator.Alloc, hs]
  · rcases h with h | h
    · simp [PoolState.Alloc, PoolState.mallocStep, h0, h]
    · simp [PoolState.Alloc, PoolState.mallocStep, h0, h]
  · constructor
    · simp [PoolState.Reserve, PoolState.mallocStep, hs]
    · simp only [PoolState.Reserve, PoolState.mallocStep, setInsert, hs, if_true,
        Bool.false_eq_true, if_false]
      split
      · assumption
      · simp

/-- Witness for C4 (amended) at size 5 and the fresh allocator states. -/
theorem C4_amended_witness :
    (CUDAAllocator.Alloc 5 none).1 = Except.error OrtError.cudaThrow ∧
    (PoolState.Alloc initPoolState 5 false).1 = 0 ∧
    0 ∈ (PoolState.Reserve initPoolState 5 false).2.reserved_ptrs := by
  have h := C4_amended_alloc_failure_fatal_except_pool 5 (by decide)
  exact ⟨h.1, h.2.2.2.1 initPoolState (Or.inl (by decide)), (h.2.2.2.2 initPoolState).2⟩

/-! ### C5: device activation around Alloc and Free -/

/-- C5 counterexample: the pooled allocator's `Alloc` performs no device
activation at all.  From the fresh pool, `Alloc(5)`'s complete device-call
trace is the single `cudaMalloc` — it contains no `SetDevice` and no
`CheckDevice` call, contradicting the claim that every `Alloc` on a
device-backed allocator activates the bound device first. -/
theorem C5_counterexample_pool_alloc_no_activation :
    (PoolState.Alloc initPoolState 5 true).2.log = [DevCall.cudaMalloc 5 1] ∧
    DevCall.setDevice true ∉ (PoolState.Alloc initPoolState 5 true).2.log ∧
    DevCall.setDevice false ∉ (PoolState.Alloc initPoolState 5 true).2.log ∧
    DevCall.checkDevice true ∉ (PoolState.Alloc initPoolState 5 true).2.log := by
  decide

/-- C5 (amended): the raw device allocator honours the activation
contract — its `Alloc` performs `SetDevice(strict)` then
`CheckDevice(strict)` before any allocation and its `Free` performs
`SetDevice(non-strict)` then `CheckDevice(non-strict)` before `cudaFree` —
but the pooled allocator's `Alloc`, `Reserve` and `Free` never invoke
`SetDevice` or `CheckDevice`: every device call they append to the trace
is a non-activation call. -/
theorem C5_amended_only_raw_activates :
    (∀ size r, (CUDAAllocator.Alloc size r).2.take 2 =
        [DevCall.setDevice true, DevCall.checkDevice true]) ∧
    (∀ p, CUDAAllocator.Free p =
        [DevCall.setDevice false, DevCall.checkDevice false, DevCall.cudaFree p]) ∧
    (∀ (st : PoolState) (size : Nat) (ok : Bool), ∃ news,
        (PoolState.Alloc st size ok).2.log = st.log ++ news ∧
        news.all (fun c => !(DevCall.isActivation c)) = true) ∧
    (∀ (st : PoolState) (size : Nat) (ok : Bool), ∃ news,
        (PoolState.Reserve st size ok).2.log = st.log ++ news ∧
        news.all (fun c => !(DevCall.isActivation c)) = true) ∧
    (∀ (st : PoolState) (p : Ptr), ∃ news,
        (PoolState.Free st p).log = st.log ++ news ∧
        news.all (fun c => !(DevCall.isActivation c)) = true) := by
  refine ⟨fun size r => ?_, fun p => rfl, fun st size ok => ?_, fun st size ok => ?_,
    fun st p => ?_⟩
  · by_cases hs : size > 0
    · cases r <;> simp [CUDAAllocator.Alloc, hs]
    · simp [CUDAAllocator.Alloc, hs]
  · rcases poolAlloc_log st size ok with h | ⟨q, hq⟩
    · exact ⟨[], by simp [h], rfl⟩
    · exact ⟨[DevCall.cudaMalloc size q], by simp [hq], rfl⟩
  · rcases poolReserve_log st size ok with h | ⟨q, hq⟩
    · exact ⟨[], by simp [h], rfl⟩
    · exact ⟨[DevCall.cudaMalloc size q], by simp [hq], rfl⟩
  · rcases poolFree_log st p with h | ⟨h0, hres, h⟩
    · exact ⟨[], by simp [h], rfl⟩
    · exact ⟨[DevCall.cudaFree p], by simp [h], rfl⟩

/-! ### Association-list lemmas -/

theorem assocFind_none_not_mem {α : Type} {m : List (Nat × α)} {k : Nat}
    (h : assocFind m k = none) : k ∉ m.map Prod.fst := by
  induction m with
  | nil => simp
  | cons a rest ih =>
    obtain ⟨k2, v⟩ := a
    by_cases hk : k2 = k
    · simp [assocFind, hk] at h
    · have h2 : assocFind rest k = none := by simpa [assocFind, hk] using h
      simp [hk, ih h2]
      exact fun he => hk he.symm

theorem not_mem_assocFind_none {α : Type} {m : List (Nat × α)} {k : Nat}
    (h : k ∉ m.map Prod.fst) : assocFind m k = none := by
  induction m with
  | nil => rfl
  | cons a rest ih =>
    obtain ⟨k2, v⟩ := a
    rw [List.map_cons, List.mem_cons] at h
    push_neg at h
    have hne : ¬ k2 = k := fun he => h.1 he.symm
    simp [assocFind, hne, ih h.2]

theorem assocFind_some_mem {α : Type} {m : List (Nat × α)} {k : Nat} {v : α}
    (h : assocFind m k = some v) : k ∈ m.map Prod.fst := by
  by_contra hk
  rw [not_mem_assocFind_none hk] at h
  exact Option.noConfusion h

theorem assocFind_assocSet_self {α : Type} (m : List (Nat × α)) (k : Nat) (v : α) :
    assocFind (assocSet m k v) k = some v := by
  induction m with
  | nil => simp [assocSet, assocFind]
  | cons a rest ih =>
    obtain ⟨k2, w⟩ := a
    by_cases hk : k2 = k
    · simp [assocSet, assocFind, hk]
    · simp [assocSet, assocFind, hk, ih]

theorem assocFind_append_of_none {α : Type} {m : List (Nat × α)} {k : Nat}
    (m2 : List (Nat × α)) (h : assocFind m k = none) :
    assocFind (m ++ m2) k = assocFind m2 k := by
  induction m with
  | nil => simp
  | cons a rest ih =>
    obtain ⟨k2, v⟩ := a
    by_cases hk : k2 = k
    · simp [assocFind, hk] at h
    · have h2 : assocFind rest k = none := by simpa [assocFind, hk] using h
      simpa [assocFind, hk] using ih h2

theorem bucketsElems_append (m m2 : List (Nat × List Ptr)) :
    bucketsElems (m ++ m2) = bucketsElems m ++ bucketsElems m2 := by
  simp [bucketsElems]

theorem mem_bucketsElems_of_find {m : List (Nat × List Ptr)} {k : Nat} {l : List Ptr}
    (h : assocFind m k = some l) {q : Ptr} (hq : q ∈ l) : q ∈ bucketsElems m := by
  induction m with
  | nil => simp [assocFind] at h
  | cons a rest ih =>
    obtain ⟨k2, w⟩ := a
    by_cases hk : k2 = k
    · simp [assocFind, hk] at h
      subst h
      simp [bucketsElems, hq]
    · have h2 : assocFind rest k = some l := by simpa [assocFind, hk] using h
      simp [bucketsElems]
      right
      simpa [bucketsElems] using ih h2

theorem mem_bucketsElems_assocSet {m : List (Nat × List Ptr)} {k : Nat} {v : List Ptr}
    {q : Ptr} (h : q ∈ bucketsElems (assocSet m k v)) :
    q ∈ v ∨ q ∈ bucketsElems m := by
  induction m with
  | nil => simpa [assocSet, bucketsElems] using h
  | cons a rest ih =>
    obtain ⟨k2, w⟩ := a
    by_cases hk : k2 = k
    · simp [assocSet, hk, bucketsElems] at h
      rcases h with h | h
      · exact Or.inl h
      · exact Or.inr (by simp [bucketsElems, h])
    · simp [assocSet, hk, bucketsElems] at h
      rcases h with h | h
      · exact Or.inr (by simp [bucketsElems, h])
      · rcases ih (by simpa [bucketsElems] using h) with h2 | h2
        · exact Or.inl h2
        · exact Or.inr (by simp [bucketsElems]; right; simpa [bucketsElems] using h2)

theorem mem_keys_mapInsert {α : Type} {m : List (Nat × α)} {k : Nat} {v : α} {q : Nat}
    (h : q ∈ (mapInsert m k v).map Prod.fst) : q ∈ m.map Prod.fst ∨ q = k := by
  unfold mapInsert at h
  cases hf : assocFind m k with
  | some w => rw [hf] at h; exact Or.inl h
  | none =>
    rw [hf] at h
    rw [List.map_append, List.mem_append] at h
    rcases h with h | h
    · exact Or.inl h
    · simp at h
      exact Or.inr h

theorem self_mem_keys_mapInsert {α : Type} (m : List (Nat × α)) (k : Nat) (v : α) :
    k ∈ (mapInsert m k v).map Prod.fst := by
  unfold mapInsert
  cases hf : assocFind m k with
  | some w => exact assocFind_some_mem hf
  | none => simp

theorem mem_keys_mapInsert_of_mem {α : Type} {m : List (Nat × α)} {q : Nat}
    (k : Nat) (v : α) (h : q ∈ m.map Prod.fst) : q ∈ (mapInsert m k v).map Prod.fst := by
  unfold mapInsert
  cases hf : assocFind m k with
  | some w => exact h
  | none =>
    rw [List.map_append, List.mem_append]
    exact Or.inl h

theorem nodup_keys_mapInsert {α : Type} {m : List (Nat × α)} (k : Nat) (v : α)
    (h : (m.map Prod.fst).Nodup) : ((mapInsert m k v).map Prod.fst).Nodup := by
  unfold mapInsert
  cases hf : assocFind m k with
  | some w => exact h
  | none =>
    have hk := assocFind_none_not_mem hf
    rw [List.map_append]
    refine List.Nodup.append h (by simp) ?_
    intro a ha hb
    simp at hb
    subst hb
    exact hk ha

theorem mem_setInsert {s : List Ptr} {p q : Ptr} :
    q ∈ setInsert s p ↔ q ∈ s ∨ q = p := by
  unfold setInsert
  by_cases hp : p ∈ s
  · simp [hp]
    intro he
    subst he
    exact hp
  · simp [hp]

theorem nodup_setInsert {s : List Ptr} (p : Ptr) (h : s.Nodup) :
    (setInsert s p).Nodup := by
  unfold setInsert
  by_cases hp : p ∈ s
  · simpa [hp] using h
  · rw [if_neg hp]
    refine List.Nodup.append h (by simp) ?_
    intro a ha hb
    simp at hb
    subst hb
    exact hp ha

theorem mem_of_getLast?_eq_some {l : List Ptr} {p : Ptr}
    (h : l.getLast? = some p) : p ∈ l := by
  cases l with
  | nil => simp at h
  | cons a rest =>
    have := List.getLast?_eq_getLast (a :: rest) (by simp)
    rw [this] at h
    have hp : List.getLast (a :: rest) (by simp) = p := by
      exact Option.some_injective _ h
    rw [← hp]
    exact List.getLast_mem _

/-! ### C1: Alloc, Free, Alloc returns the identical handle -/

/-- C1: for every size S > 0, on the pooled allocator the sequence
`Alloc(S)`; `Free(returned handle)`; `Alloc(S)` starting from the fresh
allocator returns the identical non-null handle both times, and
`cudaMalloc` is invoked exactly once across the two `Alloc` calls. -/
theorem C1_pool_alloc_free_alloc_identical (S : Nat) (hS : 0 < S) :
    (PoolState.Alloc (PoolState.Free (PoolState.Alloc initPoolState S true).2
        (PoolState.Alloc initPoolState S true).1) S true).1
      = (PoolState.Alloc initPoolState S true).1 ∧
    (PoolState.Alloc initPoolState S true).1 ≠ 0 ∧
    mallocCount (PoolState.Alloc (PoolState.Free (PoolState.Alloc initPoolState S true).2
        (PoolState.Alloc initPoolState S true).1) S true).2 = 1 := by
  have h0 : S ≠ 0 := Nat.pos_iff_ne_zero.mp hS
  have h1 : PoolState.Alloc initPoolState S true =
      (1, ⟨[(S, [1])], [(1, S)], [], 2, [DevCall.cudaMalloc S 1]⟩) := by
    simp [PoolState.Alloc, PoolState.mallocStep, initPoolState, assocFind, mapInsert, h0]
  have h2 : PoolState.Free
      (⟨[(S, [1])], [(1, S)], [], 2, [DevCall.cudaMalloc S 1]⟩ : PoolState) 1 =
      ⟨[(S, [1, 1])], [(1, S)], [], 2, [DevCall.cudaMalloc S 1]⟩ := by
    simp [PoolState.Free, assocFind, mapInsert, assocSet]
  have h3 : PoolState.Alloc
      (⟨[(S, [1, 1])], [(1, S)], [], 2, [DevCall.cudaMalloc S 1]⟩ : PoolState) S true =
      (1, ⟨[(S, [1])], [(1, S)], [], 2, [DevCall.cudaMalloc S 1]⟩) := by
    simp [PoolState.Alloc, assocFind, assocSet, h0]
  rw [h1]
  simp only []
  rw [h2, h3]
  refine ⟨rfl, by decide, ?_⟩
  simp [mallocCount, DevCall.isMalloc]

/-- Witness for C1 at S = 1024. -/
theorem C1_witness :
    (PoolState.Alloc (PoolState.Free (PoolState.Alloc initPoolState 1024 true).2
        (PoolState.Alloc initPoolState 1024 true).1) 1024 true).1
      = (PoolState.Alloc initPoolState 1024 true).1 ∧
    mallocCount (PoolState.Alloc (PoolState.Free (PoolState.Alloc initPoolState 1024 true).2
        (PoolState.Alloc initPoolState 1024 true).1) 1024 true).2 = 1 := by
  have h := C1_pool_alloc_free_alloc_identical 1024 (by decide)
  exact ⟨h.1, h.2.2⟩

/-! ### C3: a cache miss pushes the fresh handle into the bucket -/

/-- C3: on the pooled allocator, an `Alloc(S)` with S > 0 that misses the
cache (the bucket for S is absent or empty) pushes the freshly allocated
handle into the SizeBucket for S in addition to returning it; consequently
a second `Alloc(S)` with no intervening `Free` returns the same handle,
with `cudaMalloc` invoked only once across the two calls. -/
theorem C3_pool_miss_push_and_consecutive_alloc (st : PoolState) (S : Nat) (hS : 0 < S)
    (hmiss : assocFind st.size_to_alloc_ptrs S = none ∨
             assocFind st.size_to_alloc_ptrs S = some []) :
    (PoolState.Alloc st S true).1 ∈ (PoolState.Alloc st S true).2.poolElems ∧
    (PoolState.Alloc (PoolState.Alloc st S true).2 S true).1 = (PoolState.Alloc st S true).1 ∧
    mallocCount (PoolState.Alloc (PoolState.Alloc st S true).2 S true).2
      = mallocCount st + 1 := by
  have h0 : S ≠ 0 := Nat.pos_iff_ne_zero.mp hS
  rcases hmiss with h | h
  · have hA : PoolState.Alloc st S true =
        (st.nextPtr,
          { st with size_to_alloc_ptrs := st.size_to_alloc_ptrs ++ [(S, [st.nextPtr])],
                    alloc_ptr_to_size := mapInsert st.alloc_ptr_to_size st.nextPtr S,
                    nextPtr := st.nextPtr + 1,
                    log := st.log ++ [DevCall.cudaMalloc S st.nextPtr] }) := by
      simp [PoolState.Alloc, PoolState.mallocStep, h0, h]
    have hfind : assocFind (st.size_to_alloc_ptrs ++ [(S, [st.nextPtr])]) S
        = some [st.nextPtr] := by
      rw [assocFind_append_of_none _ h]
      simp [assocFind]
    refine ⟨?_, ?_, ?_⟩
    · rw [hA]
      simp only [PoolState.poolElems]
      rw [bucketsElems_append]
      simp [bucketsElems]
    · rw [hA]
      simp [PoolState.Alloc, h0, hfind]
    · rw [hA]
      simp [PoolState.Alloc, h0, hfind, mallocCount, DevCall.isMalloc]
  · have hA : PoolState.Alloc st S true =
        (st.nextPtr,
          { st with size_to_alloc_ptrs := assocSet st.size_to_alloc_ptrs S [st.nextPtr],
                    alloc_ptr_to_size := mapInsert st.alloc_ptr_to_size st.nextPtr S,
                    nextPtr := st.nextPtr + 1,
                    log := st.log ++ [DevCall.cudaMalloc S st.nextPtr] }) := by
      simp [PoolState.Alloc, PoolState.mallocStep, h0, h]
    have hfind : assocFind (assocSet st.size_to_alloc_ptrs S [st.nextPtr]) S
        = some [st.nextPtr] := assocFind_assocSet_self _ _ _
    refine ⟨?_, ?_, ?_⟩
    · rw [hA]
      simp only [PoolState.poolElems]
      exact mem_bucketsElems_of_find hfind (by simp)
    · rw [hA]
      simp [PoolState.Alloc, h0, hfind]
    · rw [hA]
      simp [PoolState.Alloc, h0, hfind, mallocCount, DevCall.isMalloc]

/-- Witness for C3: a cache-missing `Alloc(7)` on the fresh pool. -/
theorem C3_witness :
    (PoolState.Alloc initPoolState 7 true).1 ∈ (PoolState.Alloc initPoolState 7 true).2.poolElems ∧
    (PoolState.Alloc (PoolState.Alloc initPoolState 7 true).2 7 true).1
      = (PoolState.Alloc initPoolState 7 true).1 := by
  have h := C3_pool_miss_push_and_consecutive_alloc initPoolState 7 (by decide)
    (Or.inl (by decide))
  exact ⟨h.1, h.2.1⟩

/-! ### Invariants of reachable pool states -/

theorem eq_nil_of_getLast?_eq_none {l : List Ptr} (h : l.getLast? = none) : l = [] := by
  cases l with
  | nil => rfl
  | cons a rest =>
    rw [List.getLast?_eq_getLast (a :: rest) (by simp)] at h
    exact Option.noConfusion h

/-- Structural invariant of the pool allocator: every tracked pointer was
handed out by the device (is below `nextPtr`), the size index has
pairwise-distinct keys, the reserved set is duplicate-free, contains only
non-null device pointers and is disjoint from the size index, and every
pointer sitting in a size bucket is a key of the size index. -/
structure PoolInv (st : PoolState) : Prop where
  posNext : 0 < st.nextPtr
  idx_lt : ∀ q ∈ st.alloc_ptr_to_size.map Prod.fst, q < st.nextPtr
  res_lt : ∀ q ∈ st.reserved_ptrs, q < st.nextPtr
  res_pos : ∀ q ∈ st.reserved_ptrs, 0 < q
  idx_nodup : (st.alloc_ptr_to_size.map Prod.fst).Nodup
  res_nodup : st.reserved_ptrs.Nodup
  disj : ∀ q ∈ st.reserved_ptrs, q ∉ st.alloc_ptr_to_size.map Prod.fst
  buck_sub : ∀ q ∈ st.poolElems, q ∈ st.alloc_ptr_to_size.map Prod.fst

theorem poolInv_init : PoolInv initPoolState := by
  refine ⟨by decide, ?_, ?_, ?_, ?_, ?_, ?_, ?_⟩ <;>
    simp [initPoolState, PoolState.poolElems, bucketsElems]

theorem poolInv_miss_core (st : PoolState) (S : Nat) (h : PoolInv st)
    (buckets2 : List (Nat × List Ptr))
    (hb : ∀ q ∈ bucketsElems buckets2, q ∈ st.poolElems ∨ q = st.nextPtr) :
    PoolInv { st with size_to_alloc_ptrs := buckets2,
                      alloc_ptr_to_size := mapInsert st.alloc_ptr_to_size st.nextPtr S,
                      nextPtr := st.nextPtr + 1,
                      log := st.log ++ [DevCall.cudaMalloc S st.nextPtr] } := by
  refine ⟨?_, ?_, ?_, ?_, ?_, ?_, ?_, ?_⟩
  · exact Nat.lt_trans h.posNext (Nat.lt_succ_self _)
  · intro q hq
    rcases mem_keys_mapInsert hq with hq2 | hq2
    · exact Nat.lt_succ_of_lt (h.idx_lt q hq2)
    · subst hq2
      exact Nat.lt_succ_self _
  · intro q hq
    exact Nat.lt_succ_of_lt (h.res_lt q hq)
  · exact h.res_pos
  · exact nodup_keys_mapInsert _ _ h.idx_nodup
  · exact h.res_nodup
  · intro q hq hq2
    rcases mem_keys_mapInsert hq2 with hq3 | hq3
    · exact h.disj q hq hq3
    · subst hq3
      exact absurd (h.res_lt _ hq) (Nat.lt_irrefl _)
  · intro q hq
    simp only [PoolState.poolElems] at hq
    rcases hb q hq with hq2 | hq2
    · exact mem_keys_mapInsert_of_mem _ _ (h.buck_sub q hq2)
    · subst hq2
      exact self_mem_keys_mapInsert _ _ _

theorem poolInv_alloc (st : PoolState) (S : Nat) (h : PoolInv st) :
    PoolInv (PoolState.Alloc st S true).2 := by
  by_cases h0 : S = 0
  · simpa [PoolState.Alloc, h0] using h
  · cases hf : assocFind st.size_to_alloc_ptrs S with
    | some l =>
      cases hl : l.getLast? with
      | some p =>
        have hA : (PoolState.Alloc st S true).2 =
            { st with size_to_alloc_ptrs := assocSet st.size_to_alloc_ptrs S l.dropLast } := by
          simp [PoolState.Alloc, h0, hf, hl]
        rw [hA]
        refine ⟨h.posNext, h.idx_lt, h.res_lt, h.res_pos, h.idx_nodup, h.res_nodup, h.disj, ?_⟩
        intro q hq
        simp only [PoolState.poolElems] at hq
        rcases mem_bucketsElems_assocSet hq with hq2 | hq2
        · exact h.buck_sub q (mem_bucketsElems_of_find hf (List.mem_of_mem_dropLast hq2))
        · exact h.buck_sub q hq2
      | none =>
        have hnil : l = [] := eq_nil_of_getLast?_eq_none hl
        subst hnil
        have hA : (PoolState.Alloc st S true).2 =
            { st with size_to_alloc_ptrs := assocSet st.size_to_alloc_ptrs S [st.nextPtr],
                      alloc_ptr_to_size := mapInsert st.alloc_ptr_to_size st.nextPtr S,
                      nextPtr := st.nextPtr + 1,
                      log := st.log ++ [DevCall.cudaMalloc S st.nextPtr] } := by
          simp [PoolState.Alloc, PoolState.mallocStep, h0, hf, hl]
        rw [hA]
        refine poolInv_miss_core st S h _ ?_
        intro q hq
        rcases mem_bucketsElems_assocSet hq with hq2 | hq2
        · right
          simpa using hq2
        · exact Or.inl hq2
    | none =>
      have hA : (PoolState.Alloc st S true).2 =
          { st with size_to_alloc_ptrs := st.size_to_alloc_ptrs ++ [(S, [st.nextPtr])],
                    alloc_ptr_to_size := mapInsert st.alloc_ptr_to_size st.nextPtr S,
                    nextPtr := st.nextPtr + 1,
                    log := st.log ++ [DevCall.cudaMalloc S st.nextPtr] } := by
        simp [PoolState.Alloc, PoolState.mallocStep, h0, hf]
      rw [hA]
      refine poolInv_miss_core st S h _ ?_
      intro q hq
      rw [bucketsElems_append] at hq
      rcases List.mem_append.mp hq with hq2 | hq2
      · exact Or.inl hq2
      · right
        simpa [bucketsElems] using hq2

theorem poolInv_reserve (st : PoolState) (S : Nat) (h : PoolInv st) :
    PoolInv (PoolState.Reserve st S true).2 := by
  by_cases hs : S > 0
  · have hA : (PoolState.Reserve st S true).2 =
        { st with reserved_ptrs := setInsert st.reserved_ptrs st.nextPtr,
                  nextPtr := st.nextPtr + 1,
                  log := st.log ++ [DevCall.cudaMalloc S st.nextPtr] } := by
      simp [PoolState.Reserve, PoolState.mallocStep, hs]
    rw [hA]
    refine ⟨?_, ?_, ?_, ?_, ?_, ?_, ?_, ?_⟩
    · exact Nat.lt_trans h.posNext (Nat.lt_succ_self _)
    · intro q hq
      exact Nat.lt_succ_of_lt (h.idx_lt q hq)
    · intro q hq
      rcases mem_setInsert.mp hq with hq2 | hq2
      · exact Nat.lt_succ_of_lt (h.res_lt q hq2)
      · subst hq2
        exact Nat.lt_succ_self _
    · intro q hq
      rcases mem_setInsert.mp hq with hq2 | hq2
      · exact h.res_pos q hq2
      · subst hq2
        exact h.posNext
    · exact h.idx_nodup
    · exact nodup_setInsert _ h.res_nodup
    · intro q hq hq2
      rcases mem_setInsert.mp hq with hq3 | hq3
      · exact h.disj q hq3 hq2
      · subst hq3
        exact absurd (h.idx_lt _ hq2) (Nat.lt_irrefl _)
    · exact h.buck_sub
  · simpa [PoolState.Reserve, hs] using h

theorem poolInv_free (st : PoolState) (p : Ptr) (h : PoolInv st) (hp : p < st.nextPtr) :
    PoolInv (PoolState.Free st p) := by
  by_cases h0 : p = 0
  · simpa [PoolState.Free, h0] using h
  · by_cases hres : p ∈ st.reserved_ptrs
    · have hA : PoolState.Free st p =
          { st with log := st.log ++ [DevCall.cudaFree p],
                    reserved_ptrs := st.reserved_ptrs.erase p } := by
        simp [PoolState.Free, h0, hres]
      rw [hA]
      refine ⟨h.posNext, h.idx_lt, ?_, ?_, h.idx_nodup, ?_, ?_, h.buck_sub⟩
      · intro q hq
        exact h.res_lt q (List.mem_of_mem_erase hq)
      · intro q hq
        exact h.res_pos q (List.mem_of_mem_erase hq)
      · exact h.res_nodup.erase p
      · intro q hq
        exact h.disj q (List.mem_of_mem_erase hq)
    · have hA : PoolState.Free st p =
          { st with
              alloc_ptr_to_size := mapInsert st.alloc_ptr_to_size p
                ((assocFind st.alloc_ptr_to_size p).getD 0),
              size_to_alloc_ptrs := assocSet st.size_to_alloc_ptrs
                ((assocFind st.alloc_ptr_to_size p).getD 0)
                (((assocFind st.size_to_alloc_ptrs
                    ((assocFind st.alloc_ptr_to_size p).getD 0)).getD []) ++ [p]) } := by
        simp [PoolState.Free, h0, hres]
      rw [hA]
      refine ⟨h.posNext, ?_, h.res_lt, h.res_pos, ?_, h.res_nodup, ?_, ?_⟩
      · intro q hq
        rcases mem_keys_mapInsert hq with hq2 | hq2
        · exact h.idx_lt q hq2
        · subst hq2
          exact hp
      · exact nodup_keys_mapInsert _ _ h.idx_nodup
      · intro q hq hq2
        rcases mem_keys_mapInsert hq2 with hq3 | hq3
        · exact h.disj q hq hq3
        · subst hq3
          exact hres hq
      · intro q hq
        simp only [PoolState.poolElems] at hq
        rcases mem_bucketsElems_assocSet hq with hq2 | hq2
        · rcases List.mem_append.mp hq2 with hq3 | hq3
          · cases hff : assocFind st.size_to_alloc_ptrs
                ((assocFind st.alloc_ptr_to_size p).getD 0) with
            | some l0 =>
              rw [hff] at hq3
              exact mem_keys_mapInsert_of_mem _ _
                (h.buck_sub q (mem_bucketsElems_of_find hff hq3))
            | none =>
              rw [hff] at hq3
              simp at hq3
          · have : q = p := by simpa using hq3
            subst this
            exact self_mem_keys_mapInsert _ _ _
        · exact mem_keys_mapInsert_of_mem _ _ (h.buck_sub q hq2)

theorem poolReach_inv (st : PoolState) (h : PoolReach st) : PoolInv st := by
  induction h with
  | init => exact poolInv_init
  | alloc st s h ih => exact poolInv_alloc st s ih
  | reserve st s h ih => exact poolInv_reserve st s ih
  | free st p h hp ih => exact poolInv_free st p ih hp

/-- The handle returned by `Alloc` is null, popped from a bucket, or the
fresh pointer produced by the device. -/
theorem poolAlloc_result (st : PoolState) (S : Nat) :
    (PoolState.Alloc st S true).1 = 0 ∨
    (PoolState.Alloc st S true).1 ∈ st.poolElems ∨
    (PoolState.Alloc st S true).1 = st.nextPtr := by
  by_cases h0 : S = 0
  · left
    simp [PoolState.Alloc, h0]
  · cases hf : assocFind st.size_to_alloc_ptrs S with
    | some l =>
      cases hl : l.getLast? with
      | some p =>
        right
        left
        have hres : (PoolState.Alloc st S true).1 = p := by
          simp [PoolState.Alloc, h0, hf, hl]
        rw [hres]
        exact mem_bucketsElems_of_find hf (mem_of_getLast?_eq_some hl)
      | none =>
        right
        right
        simp [PoolState.Alloc, PoolState.mallocStep, h0, hf, hl]
    | none =>
      right
      right
      simp [PoolState.Alloc, PoolState.mallocStep, h0, hf]

/-! ### C2: ownership exclusivity -/

/-- C2 counterexample: from the fresh pool (a reachable state), `Alloc(5)`
returns handle 1 while handle 1 simultaneously sits in the free-for-reuse
bucket for size 5 of the resulting state — a handle currently handed out
to the caller is NOT outside all SizeBuckets, contradicting the claimed
three-way exclusivity. -/
theorem C2_counterexample_handed_out_handle_in_bucket :
    (PoolState.Alloc initPoolState 5 true).1 ∈
      (PoolState.Alloc initPoolState 5 true).2.poolElems ∧
    (PoolState.Alloc initPoolState 5 true).1 = 1 := by
  decide

/-- C2 (amended): at every reachable state of the pooled allocator, no
handle is ever in both a SizeBucket and ReservedSet, and no reserved
handle is tracked by the size index; however (see the counterexample) a
handle handed out by a cache-miss `Alloc` does remain in the SizeBucket
for its size while in use by the caller. -/
theorem C2_amended_reserved_disjoint_from_buckets (st : PoolState) (h : PoolReach st) :
    (∀ q ∈ st.reserved_ptrs, q ∉ st.poolElems) ∧
    (∀ q ∈ st.reserved_ptrs, q ∉ st.alloc_ptr_to_size.map Prod.fst) := by
  have hinv := poolReach_inv st h
  exact ⟨fun q hq hq2 => hinv.disj q hq (hinv.buck_sub q hq2), hinv.disj⟩

/-- Witness for C2 (amended): after `Reserve(4)` from the fresh pool,
handle 1 is reserved and indeed sits in no SizeBucket. -/
theorem C2_amended_witness :
    1 ∈ (PoolState.Reserve initPoolState 4 true).2.reserved_ptrs ∧
    1 ∉ (PoolState.Reserve initPoolState 4 true).2.poolElems := by
  refine ⟨by decide, ?_⟩
  exact (C2_amended_reserved_disjoint_from_buckets _
    (PoolReach.reserve initPoolState 4 PoolReach.init)).1 1 (by decide)

/-! ### C9: reserved handles are never handed out by Alloc -/

/-- C9: at every reachable state of the pooled allocator, a plain `Alloc`
of any size never returns a handle that is currently reserved, and
reserved handles never sit in any SizeBucket. -/
theorem C9_reserved_never_returned_by_alloc (st : PoolState) (h : PoolReach st) :
    (∀ S : Nat, (PoolState.Alloc st S true).1 ∉ st.reserved_ptrs) ∧
    (∀ q ∈ st.reserved_ptrs, q ∉ st.poolElems) := by
  have hinv := poolReach_inv st h
  refine ⟨fun S hmem => ?_, fun q hq hq2 => hinv.disj q hq (hinv.buck_sub q hq2)⟩
  rcases poolAlloc_result st S with hr | hr | hr
  · rw [hr] at hmem
    exact absurd (hinv.res_pos 0 hmem) (Nat.lt_irrefl 0)
  · exact hinv.disj _ hmem (hinv.buck_sub _ hr)
  · rw [hr] at hmem
    exact absurd (hinv.res_lt _ hmem) (Nat.lt_irrefl _)

/-- Witness for C9: after `Reserve(4)` from the fresh pool, handle 1 is
reserved and `Alloc(4)` hands out a different handle. -/
theorem C9_witness :
    1 ∈ (PoolState.Reserve initPoolState 4 true).2.reserved_ptrs ∧
    (PoolState.Alloc (PoolState.Reserve initPoolState 4 true).2 4 true).1 ∉
      (PoolState.Reserve initPoolState 4 true).2.reserved_ptrs := by
  refine ⟨by decide, ?_⟩
  exact (C9_reserved_never_returned_by_alloc _
    (PoolReach.reserve initPoolState 4 PoolReach.init)).1 4

/-! ### C6: destructor releases pooled and reserved handles exactly once -/

/-- C6: at every reachable state of the pooled allocator, the destructor
passes to `cudaFree` every handle sitting in any SizeBucket and every
handle in ReservedSet, with no handle freed twice (the free list is
duplicate-free); and `Free` of a non-reserved handle never invokes the
device free primitive (its device-call log is unchanged), so the
destructor is the only place ordinary pooled memory is returned to the
device. -/
theorem C6_destructor_frees_each_handle_once (st : PoolState) (h : PoolReach st) :
    (∀ q ∈ st.poolElems, q ∈ st.destructFrees) ∧
    (∀ q ∈ st.reserved_ptrs, q ∈ st.destructFrees) ∧
    st.destructFrees.Nodup ∧
    (∀ p, p ∉ st.reserved_ptrs → (PoolState.Free st p).log = st.log) := by
  have hinv := poolReach_inv st h
  refine ⟨?_, ?_, ?_, ?_⟩
  · intro q hq
    unfold PoolState.destructFrees
    exact List.mem_append.mpr (Or.inr (hinv.buck_sub q hq))
  · intro q hq
    unfold PoolState.destructFrees
    exact List.mem_append.mpr (Or.inl hq)
  · unfold PoolState.destructFrees
    exact List.Nodup.append hinv.res_nodup hinv.idx_nodup
      (fun a ha hb => hinv.disj a ha hb)
  · intro p hp
    rcases poolFree_log st p with h2 | ⟨h0, hres, h2⟩
    · exact h2
    · exact absurd hres hp

/-- Witness for C6: after `Alloc(5)` from the fresh pool, handle 1 sits in
a bucket and in the destructor's free list, the free list has no
duplicates, and freeing the untracked handle 2 performs no device call. -/
theorem C6_witness :
    1 ∈ (PoolState.Alloc initPoolState 5 true).2.destructFrees ∧
    (PoolState.Alloc initPoolState 5 true).2.destructFrees.Nodup ∧
    (PoolState.Free (PoolState.Alloc initPoolState 5 true).2 2).log
      = (PoolState.Alloc initPoolState 5 true).2.log := by
  have h := C6_destructor_frees_each_handle_once _
    (PoolReach.alloc initPoolState 5 PoolReach.init)
  exact ⟨h.1 1 (by decide), h.2.2.1, h.2.2.2 2 (by decide)⟩

/-! ### C7: external allocator Free and the empty_cache hook -/

/-- C7: on the external allocator, `Free(handle)` always invokes the
delegate free hook first, before any reserved-set check; when the handle
is reserved it is removed from the reserved set and, when the optional
`empty_cache` hook was supplied, that hook is invoked exactly once for the
release; freeing the same handle again, or freeing a handle that was never
reserved, invokes the free hook but never `empty_cache`. -/
theorem C7_external_free_empty_cache_once (hasEC : Bool) (st : ExtState) (p : Ptr)
    (hnd : st.reserved.Nodup) :
    (∃ rest, (CUDAExternalAllocator.Free hasEC st p).log
        = st.log ++ ExtCall.freeHook p :: rest) ∧
    (p ∈ st.reserved →
      (CUDAExternalAllocator.Free hasEC st p).reserved = st.reserved.erase p ∧
      p ∉ (CUDAExternalAllocator.Free hasEC st p).reserved ∧
      ecCount (CUDAExternalAllocator.Free hasEC st p)
        = ecCount st + (if hasEC then 1 else 0) ∧
      ecCount (CUDAExternalAllocator.Free hasEC (CUDAExternalAllocator.Free hasEC st p) p)
        = ecCount (CUDAExternalAllocator.Free hasEC st p)) ∧
    (p ∉ st.reserved →
      (CUDAExternalAllocator.Free hasEC st p).log = st.log ++ [ExtCall.freeHook p] ∧
      (CUDAExternalAllocator.Free hasEC st p).reserved = st.reserved ∧
      ecCount (CUDAExternalAllocator.Free hasEC st p) = ecCount st) := by
  by_cases hmem : p ∈ st.reserved
  · have hnotmem : p ∉ st.reserved.erase p := by
      intro hx
      exact absurd ((hnd.mem_erase_iff).mp hx).1 (by simp)
    cases hasEC with
    | true =>
      have hA : CUDAExternalAllocator.Free true st p =
          ⟨st.reserved.erase p,
           st.log ++ [ExtCall.freeHook p] ++ [ExtCall.emptyCacheHook]⟩ := by
        simp [CUDAExternalAllocator.Free, hmem]
      have hB : CUDAExternalAllocator.Free true
          (⟨st.reserved.erase p,
            st.log ++ [ExtCall.freeHook p] ++ [ExtCall.emptyCacheHook]⟩ : ExtState) p =
          ⟨st.reserved.erase p,
           st.log ++ [ExtCall.freeHook p] ++ [ExtCall.emptyCacheHook]
             ++ [ExtCall.freeHook p]⟩ := by
        simp [CUDAExternalAllocator.Free, hnotmem]
      rw [hA]
      refine ⟨⟨[ExtCall.emptyCacheHook], by simp⟩, fun _ => ⟨rfl, hnotmem, ?_, ?_⟩,
        fun hx => absurd hmem hx⟩
      · simp [ecCount, List.filter_append, ExtCall.isEmptyCache]
      · rw [hB]
        simp [ecCount, List.filter_append, ExtCall.isEmptyCache]
    | false =>
      have hA : CUDAExternalAllocator.Free false st p =
          ⟨st.reserved.erase p, st.log ++ [ExtCall.freeHook p]⟩ := by
        simp [CUDAExternalAllocator.Free, hmem]
      have hB : CUDAExternalAllocator.Free false
          (⟨st.reserved.erase p, st.log ++ [ExtCall.freeHook p]⟩ : ExtState) p =
          ⟨st.reserved.erase p,
           st.log ++ [ExtCall.freeHook p] ++ [ExtCall.freeHook p]⟩ := by
        simp [CUDAExternalAllocator.Free, hnotmem]
      rw [hA]
      refine ⟨⟨[], by simp⟩, fun _ => ⟨rfl, hnotmem, ?_, ?_⟩, fun hx => absurd hmem hx⟩
      · simp [ecCount, List.filter_append, ExtCall.isEmptyCache]
      · rw [hB]
        simp [ecCount, List.filter_append, ExtCall.isEmptyCache]
  · have hA : CUDAExternalAllocator.Free hasEC st p =
        ⟨st.reserved, st.log ++ [ExtCall.freeHook p]⟩ := by
      simp [CUDAExternalAllocator.Free, hmem]
    rw [hA]
    refine ⟨⟨[], by simp⟩, fun hx => absurd hx hmem, fun _ => ⟨rfl, rfl, ?_⟩⟩
    simp [ecCount, List.filter_append, ExtCall.isEmptyCache]

/-- Witness for C7: freeing reserved handle 9 (with `empty_cache`
supplied) invokes `empty_cache` exactly once, removes the handle, and a
second free does not invoke it again. -/
theorem C7_witness :
    9 ∉ (CUDAExternalAllocator.Free true (⟨[9], []⟩ : ExtState) 9).reserved ∧
    ecCount (CUDAExternalAllocator.Free true (⟨[9], []⟩ : ExtState) 9) = 1 ∧
    ecCount (CUDAExternalAllocator.Free true
      (CUDAExternalAllocator.Free true (⟨[9], []⟩ : ExtState) 9) 9) = 1 := by
  have h := C7_external_free_empty_cache_once true ⟨[9], []⟩ 9 (by decide)
  have h2 := h.2.1 (by decide)
  refine ⟨h2.2.1, ?_, ?_⟩
  · rw [h2.2.2.1]
    decide
  · rw [h2.2.2.2, h2.2.2.1]
    decide

/-! ### C10: duplicate reservation on the external allocator is fatal -/

/-- C10: on the external allocator, when the delegate hands `Reserve` a
non-null pointer that is already in the reserved set, the operation fails
fatally through the `ORT_ENFORCE` invariant assertion; and whenever
`Reserve` returns a non-null handle normally, that handle has been
inserted into the reserved set of the resulting state. -/
theorem C10_external_reserve_duplicate_fatal (st : ExtState) (size : Nat) (ret : Ptr)
    (hs : 0 < size) :
    (ret ≠ 0 → ret ∈ st.reserved →
      CUDAExternalAllocator.Reserve st size ret
        = Except.error OrtError.enforceNotReserved) ∧
    (∀ (p : Ptr) (st2 : ExtState),
      CUDAExternalAllocator.Reserve st size ret = Except.ok (p, st2) → p ≠ 0 →
      p ∈ st2.reserved) := by
  constructor
  · intro hr hmem
    simp [CUDAExternalAllocator.Reserve, CUDAExternalAllocator.Alloc, hs, hr, hmem]
  · intro p st2 heq hp
    by_cases hr : ret = 0
    · simp [CUDAExternalAllocator.Reserve, CUDAExternalAllocator.Alloc, hs, hr] at heq
    · by_cases hmem : ret ∈ st.reserved
      · simp [CUDAExternalAllocator.Reserve, CUDAExternalAllocator.Alloc, hs, hr, hmem] at heq
      · simp [CUDAExternalAllocator.Reserve, CUDAExternalAllocator.Alloc, hs, hr, hmem] at heq
        obtain ⟨hp2, hst2⟩ := heq
        subst hst2
        simp [← hp2]

/-- Witness for C10: reserving when the delegate returns the
already-reserved handle 7 is fatal; a normal `Reserve` on the fresh
external allocator leaves its handle in the reserved set. -/
theorem C10_witness :
    CUDAExternalAllocator.Reserve (⟨[7], []⟩ : ExtState) 4 7
      = Except.error OrtError.enforceNotReserved ∧
    7 ∈ (⟨[7], [ExtCall.allocHook 4 7]⟩ : ExtState).reserved := by
  constructor
  · exact (C10_external_reserve_duplicate_fatal ⟨[7], []⟩ 4 7 (by decide)).1
      (by decide) (by decide)
  · exact (C10_external_reserve_duplicate_fatal initExtState 4 7 (by decide)).2 7
      ⟨[7], [ExtCall.allocHook 4 7]⟩ rfl (by decide)
